import Mathlib

/-!
Verification of `SimpleComposableMemory`
(`llama-index-core/llama_index/core/memory/simple_composable_memory.py`).

The coordinator composes one primary memory source with zero or more
secondary sources: reads merge the secondary histories into the leading
system message, writes fan out to every source, and `reset` touches only
the primary.  The Python strings, the marker-splitting merge and the
fan-out state changes are embedded below as executable Lean functions.
-/

/-! ## Messages and roles

`MessageRole` is a string-valued enum in `llama_index.core.base.llms.types`
(not under `src/`); the coordinator only compares roles for equality and
renders `role.upper()`.  We model the roles named by the spec plus the other
defined roles, each with its underlying string value. -/

inductive MessageRole where
  | system
  | user
  | assistant
  | function
  | tool
  | chatbot
  | model
  deriving DecidableEq

/-- The underlying string value of the role enum (e.g. `MessageRole.SYSTEM = "system"`). -/
def MessageRole.value : MessageRole → String
  | .system => "system"
  | .user => "user"
  | .assistant => "assistant"
  | .function => "function"
  | .tool => "tool"
  | .chatbot => "chatbot"
  | .model => "model"

/-- Python `str.upper()` on the ASCII role values. -/
def pyUpper (s : String) : String := ⟨s.data.map Char.toUpper⟩

/-- `m.role.upper()` as used by `_format_secondary_messages`. -/
def MessageRole.upper (r : MessageRole) : String := pyUpper r.value

/-- A chat message: a role plus textual content. -/
structure ChatMessage where
  role : MessageRole
  content : String
  deriving DecidableEq

/-! ## Python string primitives used by the coordinator

`content.split(marker)[0]` and `str.strip()` are modelled on the character
list underlying the string. -/

/-- Python whitespace characters stripped by `str.strip()` (ASCII part). -/
def pySpace (c : Char) : Bool :=
  c = ' ' || c = '\t' || c = '\n' || c = '\r' || c = '\x0b' || c = '\x0c'

/-- Python `str.strip()`: drop whitespace from both ends, on char lists. -/
def stripL (l : List Char) : List Char :=
  ((l.dropWhile pySpace).reverse.dropWhile pySpace).reverse

/-- Python `str.strip()` on strings. -/
def pyStrip (s : String) : String := ⟨stripL s.data⟩

/-- `leadsWith m l` : the list `m` is an initial segment of `l`. -/
def leadsWith : List Char → List Char → Bool
  | [], _ => true
  | _ :: _, [] => false
  | c :: m, d :: l => c = d && leadsWith m l

/-- Everything before the first occurrence of the (non-empty) marker `m`:
the char-list semantics of Python `s.split(m)[0]`. -/
def takeUntilMarker (m : List Char) : List Char → List Char
  | [] => []
  | c :: l => if leadsWith m (c :: l) then [] else c :: takeUntilMarker m l

/-- `s.split(marker)[0]` on strings (for a non-empty marker): the portion of
`s` strictly before the first occurrence of `marker`, or all of `s` when the
marker does not occur. -/
def splitHeadOnMarker (marker s : String) : String :=
  ⟨takeUntilMarker marker.data s.data⟩

/-- `containsSub m l` : the list `m` occurs as a contiguous sub-list of `l`. -/
def containsSub (m : List Char) : List Char → Bool
  | [] => leadsWith m []
  | c :: l => leadsWith m (c :: l) || containsSub m l

/-! ## The coordinator's fixed strings (module-level constants). -/

def DEFAULT_INTRO_HISTORY_MESSAGE : String :=
  "Below are a set of relevant dialogues retrieved from potentially several memory sources:"

def DEFAULT_OUTRO_HISTORY_MESSAGE : String :=
  "This is the end of the of retrieved message dialogues."

/-! ## `_format_secondary_messages`

The Python method accumulates into a single string with `+=` over
`enumerate(secondary_chat_histories)`; the accumulation is embedded as a
`foldl` over `List.enum`. -/

/-- `_format_secondary_messages`: formats retrieved historical messages into
a single string (lines 60-77 of the source). -/
def formatSecondaryMessages (secondary_chat_histories : List (List ChatMessage)) : String :=
  let formatted_history := "\n\n" ++ DEFAULT_INTRO_HISTORY_MESSAGE ++ "\n"
  let formatted_history := secondary_chat_histories.enum.foldl
    (fun acc p =>
      let acc := acc ++ "\n=====Relevant messages from memory source "
        ++ toString (p.1 + 1) ++ "=====\n\n"
      let acc := p.2.foldl
        (fun acc m => acc ++ "\t" ++ m.role.upper ++ ": " ++ m.content ++ "\n") acc
      acc ++ "\n=====End of relevant messages from memory source "
        ++ toString (p.1 + 1) ++ "======\n\n")
    formatted_history
  formatted_history ++ DEFAULT_OUTRO_HISTORY_MESSAGE

/-! ## `_compose_message_histories` (the read path of `get`)

The method first fetches the primary history and every secondary history;
the composition below is a pure function of those fetched lists (primary
first argument, raw per-source secondary results second, in fixed source
order), exactly as collected in lines 85-121 of the source. -/

/-- `_compose_message_histories` lines 90-121: keep the non-empty secondary
histories; when at least one exists, format them and splice the block into
the leading system message (stripping a previously injected block at the
first occurrence of `DEFAULT_INTRO_HISTORY_MESSAGE`), or insert a fresh
system message otherwise. -/
def composeMessageHistories (messages : List ChatMessage)
    (secondaryHistories : List (List ChatMessage)) : List ChatMessage :=
  let secondary_histories := secondaryHistories.filter fun h => !h.isEmpty
  if secondary_histories.isEmpty then
    messages
  else
    let single_secondary_memory_str := formatSecondaryMessages secondary_histories
    match messages with
    | [] =>
      [{ role := .system,
         content := "You are a helpful assistant." ++ single_secondary_memory_str }]
    | m0 :: rest =>
      if m0.role = MessageRole.system then
        { role := .system,
          content :=
            pyStrip (splitHeadOnMarker DEFAULT_INTRO_HISTORY_MESSAGE m0.content)
              ++ single_secondary_memory_str } :: rest
      else
        { role := .system,
          content := "You are a helpful assistant." ++ single_secondary_memory_str }
          :: m0 :: rest

/-! ## Memory sources and the coordinator state

A `BaseMemory` collaborator is modelled by its observable stored history
plus an opaque behaviour flag saying whether its `put` raises.  The
coordinator never catches collaborator exceptions; a raising `put` is
embedded as an operation that returns `none` and leaves the store
unchanged, and the uncaught Python exception surfaces as a
`SourceWriteError` naming the source at which the fan-out stopped. -/

structure BaseMemory where
  store : List ChatMessage
  failsPut : Bool
  deriving DecidableEq

/-- A source's `get_all()`: its complete stored history. -/
def BaseMemory.get_all (m : BaseMemory) : List ChatMessage := m.store

/-- A source's `put(message)`: appends, or raises (returns `none`) when the
collaborator fails. -/
def BaseMemory.putMsg (m : BaseMemory) (message : ChatMessage) : Option BaseMemory :=
  if m.failsPut then none else some { m with store := m.store ++ [message] }

/-- A source's `reset()`: clears its stored history. -/
def BaseMemory.resetMem (m : BaseMemory) : BaseMemory := { m with store := [] }

/-- `SimpleComposableMemory.__init__` raises `ValueError` ("Must supply at
least one memory source.") on an empty source list; the spec's taxonomy
names this `ConfigurationError`. -/
inductive ConfigurationError where
  | noSources
  deriving DecidableEq

/-- The spec's `SourceWriteError`: identifies the source whose write raised
mid-fan-out. -/
inductive SourceWriteError where
  | primary
  | secondary (ix : Nat)
  deriving DecidableEq

/-- The coordinator's state: `_primary_memory` and
`_secondary_memory_sources`. -/
structure SimpleComposableMemory where
  primary_memory : BaseMemory
  secondary_memory_sources : List BaseMemory
  deriving DecidableEq

/-- `SimpleComposableMemory.__init__` (lines 27-33): raise when `sources` is
empty, else `sources[0]` becomes primary and `sources[1:]` secondary. -/
def SimpleComposableMemory.init (sources : List BaseMemory) :
    Except ConfigurationError SimpleComposableMemory :=
  match sources with
  | [] => .error .noSources
  | s0 :: rest => .ok { primary_memory := s0, secondary_memory_sources := rest }

/-- Modelled from the spec: `ChatMemoryBuffer.from_defaults()` (the
`ChatMemoryBuffer` implementation is not under `src/`) — "a single freshly
created default in-memory buffer", with empty history and a working `put`. -/
def chatMemoryBufferDefault : BaseMemory := { store := [], failsPut := false }

/-- `SimpleComposableMemory.from_defaults` (lines 50-58):
`sources = sources or [ChatMemoryBuffer.from_defaults()]` — both `None` and
the empty list are falsy in Python, so each is replaced by the default
buffer before calling the constructor. -/
def SimpleComposableMemory.from_defaults (sources : Option (List BaseMemory)) :
    Except ConfigurationError SimpleComposableMemory :=
  let sources := match sources with
    | none => [chatMemoryBufferDefault]
    | some l => if l.isEmpty then [chatMemoryBufferDefault] else l
  SimpleComposableMemory.init sources

/-- The fan-out `for mem in self._secondary_memory_sources: mem.put(message)`
with exception semantics: stop at the first raising source (identified by
its 0-based index `ix`), keeping the in-place appends already performed. -/
def putAllSecondaries (message : ChatMessage) :
    Nat → List BaseMemory → List BaseMemory × Option SourceWriteError
  | _, [] => ([], none)
  | ix, mem :: rest =>
    match mem.putMsg message with
    | none => (mem :: rest, some (.secondary ix))
    | some mem' =>
      let (rest', err) := putAllSecondaries message (ix + 1) rest
      (mem' :: rest', err)

/-- `SimpleComposableMemory.put` (lines 130-134): append to the primary
source, then to every secondary source in fixed order; an uncaught
collaborator exception aborts the remaining writes without rollback. -/
def SimpleComposableMemory.put (scm : SimpleComposableMemory) (message : ChatMessage) :
    SimpleComposableMemory × Option SourceWriteError :=
  match scm.primary_memory.putMsg message with
  | none => (scm, some .primary)
  | some p' =>
    let (secs', err) := putAllSecondaries message 0 scm.secondary_memory_sources
    ({ primary_memory := p', secondary_memory_sources := secs' }, err)

/-- `SimpleComposableMemory.get_all` (lines 123-128): uses primary memory
`get_all` only. -/
def SimpleComposableMemory.get_all (scm : SimpleComposableMemory) : List ChatMessage :=
  scm.primary_memory.get_all

/-- `SimpleComposableMemory.reset` (lines 142-144): resets only the primary
source. -/
def SimpleComposableMemory.reset (scm : SimpleComposableMemory) : SimpleComposableMemory :=
  { scm with primary_memory := scm.primary_memory.resetMem }

/-- `SimpleComposableMemory.reset_all` (lines 146-150): resets the primary
source and then every secondary source in fixed order. -/
def SimpleComposableMemory.reset_all (scm : SimpleComposableMemory) : SimpleComposableMemory :=
  { primary_memory := scm.primary_memory.resetMem,
    secondary_memory_sources := scm.secondary_memory_sources.map BaseMemory.resetMem }

/-! ## Spec-side descriptions (for the refinement claims)

These definitions follow the spec's words, to be compared with the
source-derived functions above. -/

/-- Spec 4.2 step 2: one message rendered as a line `ROLE: content` with the
role upper-cased (and the source's tab prefix and newline). -/
def specMessageLine (m : ChatMessage) : String :=
  "\t" ++ m.role.upper ++ ": " ++ m.content ++ "\n"

/-- Spec 4.2 step 2: every message of a history, one line each, in original
message order. -/
def specLines : List ChatMessage → String
  | [] => ""
  | m :: rest => specMessageLine m ++ specLines rest

/-- Spec 4.2 step 2: the section for source `ix1` (1-based): header naming
the source, its message lines, matching footer. -/
def specSection (ix1 : Nat) (history : List ChatMessage) : String :=
  "\n=====Relevant messages from memory source " ++ toString ix1 ++ "=====\n\n"
    ++ specLines history
    ++ "\n=====End of relevant messages from memory source " ++ toString ix1 ++ "======\n\n"

/-- Spec 4.2 step 2: the sections of all histories, in source order, indexed
from `ix1`. -/
def specSections (ix1 : Nat) : List (List ChatMessage) → String
  | [] => ""
  | history :: rest => specSection ix1 history ++ specSections (ix1 + 1) rest

/-- Spec 4.5 and 7: the expected result of `put` — the first failing source
in the fixed order primary, secondary 1, secondary 2, ... is identified by
the error; every source strictly before it keeps its appended message and
every source from it on is unchanged. -/
def firstFailIdx : List BaseMemory → Option Nat
  | [] => none
  | mem :: rest => if mem.failsPut then some 0 else (firstFailIdx rest).map (· + 1)

/-- Append a message to a (non-failing) source's store. -/
def appendMsg (message : ChatMessage) (m : BaseMemory) : BaseMemory :=
  { m with store := m.store ++ [message] }

/-- Spec 4.5: closed-form description of `put`'s outcome. -/
def putExpected (scm : SimpleComposableMemory) (message : ChatMessage) :
    SimpleComposableMemory × Option SourceWriteError :=
  if scm.primary_memory.failsPut then
    (scm, some .primary)
  else
    match firstFailIdx scm.secondary_memory_sources with
    | none =>
      ({ primary_memory := appendMsg message scm.primary_memory,
         secondary_memory_sources :=
           scm.secondary_memory_sources.map (appendMsg message) }, none)
    | some k =>
      ({ primary_memory := appendMsg message scm.primary_memory,
         secondary_memory_sources :=
           (scm.secondary_memory_sources.take k).map (appendMsg message)
             ++ scm.secondary_memory_sources.drop k }, some (.secondary k))

/-! ## String and list lemmas -/

@[simp]
theorem string_data_append (a b : String) : (a ++ b).data = a.data ++ b.data := by
  cases a; cases b; rfl

theorem string_ext {a b : String} (h : a.data = b.data) : a = b := by
  cases a; cases b; exact congrArg String.mk h

theorem string_mk_data (s : String) : (⟨s.data⟩ : String) = s := by
  cases s; rfl

theorem string_append_empty (a : String) : a ++ "" = a := by
  apply string_ext; simp

theorem foldl_lines (ch : List ChatMessage) (acc : String) :
    ch.foldl (fun acc m => acc ++ "\t" ++ m.role.upper ++ ": " ++ m.content ++ "\n") acc
      = acc ++ specLines ch := by
  induction ch generalizing acc with
  | nil => simp [specLines, string_append_empty]
  | cons m t ih =>
    simp only [List.foldl, specLines]
    rw [ih]
    apply string_ext
    simp [specMessageLine, List.append_assoc]

theorem foldl_sections (hs : List (List ChatMessage)) (n : Nat) (acc : String) :
    (List.enumFrom n hs).foldl
      (fun acc p =>
        let acc := acc ++ "\n=====Relevant messages from memory source "
          ++ toString (p.1 + 1) ++ "=====\n\n"
        let acc := p.2.foldl
          (fun acc m => acc ++ "\t" ++ m.role.upper ++ ": " ++ m.content ++ "\n") acc
        acc ++ "\n=====End of relevant messages from memory source "
          ++ toString (p.1 + 1) ++ "======\n\n")
      acc
      = acc ++ specSections (n + 1) hs := by
  induction hs generalizing n acc with
  | nil => simp [specSections, string_append_empty, List.enumFrom]
  | cons ch rest ih =>
    simp only [List.enumFrom, List.foldl]
    rw [foldl_lines, ih]
    apply string_ext
    simp [specSections, specSection, List.append_assoc]

/-- The source's accumulating `_format_secondary_messages` equals the spec's
structured description: intro sentence, one header/lines/footer section per
history with 1-based indices in source order, closing sentence. -/
theorem format_structured (hs : List (List ChatMessage)) :
    formatSecondaryMessages hs
      = "\n\n" ++ DEFAULT_INTRO_HISTORY_MESSAGE ++ "\n" ++ specSections 1 hs
          ++ DEFAULT_OUTRO_HISTORY_MESSAGE := by
  show (List.enumFrom 0 hs).foldl _ _ ++ _ = _
  rw [foldl_sections]

theorem format_data (hs : List (List ChatMessage)) :
    (formatSecondaryMessages hs).data
      = '\n' :: '\n' :: (DEFAULT_INTRO_HISTORY_MESSAGE.data
          ++ '\n' :: ((specSections 1 hs).data ++ DEFAULT_OUTRO_HISTORY_MESSAGE.data)) := by
  rw [format_structured]
  simp

/-! ## Marker-splitting lemmas -/

theorem leadsWith_self_append (m r : List Char) : leadsWith m (m ++ r) = true := by
  induction m with
  | nil => rfl
  | cons c t ih => simp [leadsWith, ih]

theorem takeUntil_of_not_contains (m l : List Char) (h : containsSub m l = false) :
    takeUntilMarker m l = l := by
  induction l with
  | nil => rfl
  | cons c t ih =>
    simp only [containsSub, Bool.or_eq_false_iff] at h
    simp [takeUntilMarker, h.1, ih h.2]

theorem leads_extend (z : List Char) (m : List Char) (d : Char) (w : List Char)
    (h : leadsWith m (z ++ d :: w) = true) : leadsWith m z = true ∨ d ∈ m := by
  induction z generalizing m with
  | nil =>
    cases m with
    | nil => exact Or.inl rfl
    | cons c m' =>
      simp only [List.nil_append, leadsWith, Bool.and_eq_true, decide_eq_true_eq] at h
      exact Or.inr (h.1 ▸ List.mem_cons_self c m')
  | cons a z' ih =>
    cases m with
    | nil => exact Or.inl rfl
    | cons c m' =>
      simp only [List.cons_append, leadsWith, Bool.and_eq_true, decide_eq_true_eq] at h
      rcases ih m' h.2 with hl | hm
      · exact Or.inl (by simp [leadsWith, h.1, hl])
      · exact Or.inr (List.mem_cons_of_mem c hm)

theorem takeUntil_append_marker (m z r : List Char) (hm : m ≠ []) (hnl : '\n' ∉ m)
    (hz : containsSub m z = false) :
    takeUntilMarker m (z ++ '\n' :: '\n' :: (m ++ r)) = z ++ ['\n', '\n'] := by
  induction z with
  | nil =>
    obtain ⟨c, m', rfl⟩ : ∃ c m', m = c :: m' := by
      cases m with
      | nil => exact absurd rfl hm
      | cons c m' => exact ⟨c, m', rfl⟩
    have hc : c ≠ '\n' := fun hcn => hnl (hcn ▸ List.mem_cons_self c m')
    have e1 : leadsWith (c :: m') ('\n' :: '\n' :: c :: (m' ++ r)) = false := by
      simp [leadsWith, hc]
    have e2 : leadsWith (c :: m') ('\n' :: c :: (m' ++ r)) = false := by
      simp [leadsWith, hc]
    have e3 : leadsWith (c :: m') (c :: (m' ++ r)) = true := by
      simpa using leadsWith_self_append (c :: m') r
    simp [takeUntilMarker, e1, e2, e3]
  | cons a z' ih =>
    simp only [containsSub, Bool.or_eq_false_iff] at hz
    have hlead : leadsWith m (a :: (z' ++ '\n' :: '\n' :: (m ++ r))) = false := by
      cases hlw : leadsWith m (a :: (z' ++ '\n' :: '\n' :: (m ++ r))) with
      | false => rfl
      | true =>
        rcases leads_extend (a :: z') m '\n' ('\n' :: (m ++ r)) (by simpa using hlw)
          with hl | hmem
        · rw [hz.1] at hl; simp at hl
        · exact absurd hmem hnl
    simp [takeUntilMarker, hlead, ih hz.2]

/-! ## `str.strip()` lemmas -/

theorem dropWhile_len_le (p : Char → Bool) (l : List Char) :
    (l.dropWhile p).length ≤ l.length := by
  induction l with
  | nil => simp
  | cons c t ih =>
    by_cases hp : p c
    · simp only [List.dropWhile, hp]
      exact Nat.le_trans ih (Nat.le_succ _)
    · simp [List.dropWhile, hp]

theorem dropWhile_eq_self_of_len (p : Char → Bool) (l : List Char)
    (h : (l.dropWhile p).length = l.length) : l.dropWhile p = l := by
  cases l with
  | nil => rfl
  | cons c t =>
    by_cases hp : p c
    · exfalso
      simp only [List.dropWhile, hp] at h
      have := dropWhile_len_le p t
      rw [List.length_cons] at h
      omega
    · simp [List.dropWhile, hp]

theorem head_not_space (p : Char → Bool) (c : Char) (t : List Char)
    (h : List.dropWhile p (c :: t) = c :: t) : p c = false := by
  by_cases hp : p c
  · exfalso
    have hlen : (List.dropWhile p (c :: t)).length = t.length + 1 := by rw [h]; simp
    simp only [List.dropWhile, hp] at hlen
    have := dropWhile_len_le p t
    omega
  · exact Bool.of_not_eq_true hp

theorem stripL_eq_self_parts (l : List Char) (h : stripL l = l) :
    l.dropWhile pySpace = l ∧ l.reverse.dropWhile pySpace = l.reverse := by
  have hlen1 : ((l.dropWhile pySpace).reverse.dropWhile pySpace).length
      ≤ (l.dropWhile pySpace).length := by
    have := dropWhile_len_le pySpace (l.dropWhile pySpace).reverse
    simpa using this
  have hlen2 : (stripL l).length
      = ((l.dropWhile pySpace).reverse.dropWhile pySpace).length := by
    simp [stripL]
  have hdlen : (l.dropWhile pySpace).length = l.length := by
    have h3 := dropWhile_len_le pySpace l
    have h4 : (stripL l).length = l.length := by rw [h]
    omega
  have hd : l.dropWhile pySpace = l := dropWhile_eq_self_of_len pySpace l hdlen
  constructor
  · exact hd
  · have h5 : (l.reverse.dropWhile pySpace).reverse = l := by
      have := h
      rw [stripL, hd] at this
      exact this
    have := congrArg List.reverse h5
    simpa using this

theorem stripL_append_nn (l : List Char) (h : stripL l = l) :
    stripL (l ++ ['\n', '\n']) = l := by
  obtain ⟨hd, hr⟩ := stripL_eq_self_parts l h
  cases l with
  | nil => decide
  | cons c t =>
    have hc : pySpace c = false := head_not_space pySpace c t hd
    have step1 : List.dropWhile pySpace (c :: t ++ ['\n', '\n']) = c :: (t ++ ['\n', '\n']) := by
      simp [List.dropWhile, hc]
    have hnl : pySpace '\n' = true := by decide
    rw [stripL]
    rw [show (c :: t) ++ ['\n', '\n'] = c :: (t ++ ['\n', '\n']) from rfl]
    rw [show List.dropWhile pySpace (c :: (t ++ ['\n', '\n'])) = c :: (t ++ ['\n', '\n']) by
      simpa using step1]
    rw [show (c :: (t ++ ['\n', '\n'])).reverse = '\n' :: '\n' :: (c :: t).reverse by
      simp]
    rw [show List.dropWhile pySpace ('\n' :: '\n' :: (c :: t).reverse)
        = List.dropWhile pySpace (c :: t).reverse by simp [List.dropWhile, hnl]]
    rw [hr]
    simp

/-! ## Composition lemmas -/

theorem splitHead_of_not_contains (marker s : String)
    (h : containsSub marker.data s.data = false) : splitHeadOnMarker marker s = s := by
  rw [splitHeadOnMarker, takeUntil_of_not_contains marker.data s.data h, string_mk_data]

theorem filter_empty_of_all_nil (sh : List (List ChatMessage)) (h : ∀ x ∈ sh, x = []) :
    (sh.filter fun h => !h.isEmpty) = [] := by
  induction sh with
  | nil => rfl
  | cons a t ih =>
    have ha : a = [] := h a (List.mem_cons_self _ _)
    subst ha
    simpa using ih fun x hx => h x (List.mem_cons_of_mem _ hx)

theorem compose_all_secondary_empty (msgs : List ChatMessage)
    (sh : List (List ChatMessage)) (h : ∀ x ∈ sh, x = []) :
    composeMessageHistories msgs sh = msgs := by
  unfold composeMessageHistories
  rw [filter_empty_of_all_nil sh h]
  rfl

theorem filter_isEmpty_false_of_ne_nil (sh : List (List ChatMessage))
    (h : (sh.filter fun h => !h.isEmpty) ≠ []) :
    (sh.filter fun h => !h.isEmpty).isEmpty = false := by
  rcases hq : sh.filter fun h => !h.isEmpty with _ | ⟨a, t⟩
  · exact absurd hq h
  · rw [hq]
    rfl

theorem compose_system_cons (X : String) (rest : List ChatMessage)
    (sh : List (List ChatMessage)) (h3 : (sh.filter fun h => !h.isEmpty) ≠ []) :
    composeMessageHistories ({ role := .system, content := X } :: rest) sh
      = { role := MessageRole.system,
          content := pyStrip (splitHeadOnMarker DEFAULT_INTRO_HISTORY_MESSAGE X)
            ++ formatSecondaryMessages (sh.filter fun h => !h.isEmpty) } :: rest := by
  have hne := filter_isEmpty_false_of_ne_nil sh h3
  simp [composeMessageHistories, hne]

theorem compose_empty_primary (sh : List (List ChatMessage))
    (h3 : (sh.filter fun h => !h.isEmpty) ≠ []) :
    composeMessageHistories [] sh
      = [{ role := MessageRole.system,
           content := "You are a helpful assistant."
             ++ formatSecondaryMessages (sh.filter fun h => !h.isEmpty) }] := by
  have hne := filter_isEmpty_false_of_ne_nil sh h3
  simp [composeMessageHistories, hne]

/-! ## Claim theorems -/

/-- C3: for every query, if every secondary source's `get` returns an empty
history, `get` returns exactly the primary source's `get` result, unmodified
— no injection block is built and no SYSTEM message is inserted or
replaced. -/
theorem get_all_secondaries_empty_returns_primary (primary : List ChatMessage)
    (sh : List (List ChatMessage)) (h : ∀ x ∈ sh, x = []) :
    composeMessageHistories primary sh = primary :=
  compose_all_secondary_empty primary sh h

theorem get_all_secondaries_empty_returns_primary_witness :
    composeMessageHistories
        [{ role := MessageRole.user, content := "hi" },
         { role := MessageRole.assistant, content := "hello" }] [[], []]
      = [{ role := MessageRole.user, content := "hi" },
         { role := MessageRole.assistant, content := "hello" }] :=
  get_all_secondaries_empty_returns_primary _ [[], []] (by decide)

/-- C4: construction from an ordered list of sources raises a
`ConfigurationError` if and only if the list is empty; for every non-empty
list it succeeds, the primary memory equals the first element and the
secondary sources equal the remaining elements in their original order. -/
theorem init_first_primary_rest_secondary (s0 : BaseMemory) (rest : List BaseMemory) :
    SimpleComposableMemory.init ([] : List BaseMemory) = .error .noSources
    ∧ SimpleComposableMemory.init (s0 :: rest)
        = .ok { primary_memory := s0, secondary_memory_sources := rest }
    ∧ ∀ e, SimpleComposableMemory.init (s0 :: rest) ≠ .error e := by
  refine ⟨rfl, rfl, ?_⟩
  intro e hcontr
  simp [SimpleComposableMemory.init] at hcontr

/-- C5: if the primary source's `get` returns an empty history and at least
one secondary source returns a non-empty history, `get` returns a
single-element sequence: one SYSTEM message whose content starts with the
default assistant-introduction sentence followed by the formatted injection
block. -/
theorem get_empty_primary_single_system (sh : List (List ChatMessage))
    (h : (sh.filter fun h => !h.isEmpty) ≠ []) :
    composeMessageHistories [] sh
      = [{ role := MessageRole.system,
           content := "You are a helpful assistant."
             ++ formatSecondaryMessages (sh.filter fun h => !h.isEmpty) }] :=
  compose_empty_primary sh h

theorem get_empty_primary_single_system_witness :
    composeMessageHistories [] [[{ role := MessageRole.user, content := "hi" }]]
      = [{ role := MessageRole.system,
           content := "You are a helpful assistant."
             ++ formatSecondaryMessages
               ([[{ role := MessageRole.user, content := "hi" }]].filter
                 fun h => !h.isEmpty) }] :=
  get_empty_primary_single_system [[{ role := MessageRole.user, content := "hi" }]]
    (by decide)

/-- C6: formatting N non-empty secondary histories produces one string
consisting of the fixed introductory sentence, then for each history in
source order (1-based index) a section header, the history's messages one
per line as `ROLE: content` with upper-cased role in original order, and a
matching section footer, then the fixed closing sentence; for two histories
of sizes 2 and 3 there are exactly the two header/footer sections indexed 1
and 2. -/
theorem format_sections_spec (hs : List (List ChatMessage)) (h1 h2 : List ChatMessage)
    (hl1 : h1.length = 2) (hl2 : h2.length = 3) :
    formatSecondaryMessages hs
      = "\n\n" ++ DEFAULT_INTRO_HISTORY_MESSAGE ++ "\n" ++ specSections 1 hs
          ++ DEFAULT_OUTRO_HISTORY_MESSAGE
    ∧ formatSecondaryMessages [h1, h2]
      = "\n\n" ++ DEFAULT_INTRO_HISTORY_MESSAGE ++ "\n"
          ++ (specSection 1 h1 ++ specSection 2 h2) ++ DEFAULT_OUTRO_HISTORY_MESSAGE := by
  constructor
  · exact format_structured hs
  · rw [format_structured]
    apply string_ext
    simp [specSections, List.append_assoc]

theorem format_sections_spec_witness :
    formatSecondaryMessages [[{ role := MessageRole.user, content := "q" }]]
      = "\n\n" ++ DEFAULT_INTRO_HISTORY_MESSAGE ++ "\n"
          ++ specSections 1 [[{ role := MessageRole.user, content := "q" }]]
          ++ DEFAULT_OUTRO_HISTORY_MESSAGE
    ∧ formatSecondaryMessages
        [[{ role := MessageRole.user, content := "a" },
          { role := MessageRole.assistant, content := "b" }],
         [{ role := MessageRole.user, content := "c" },
          { role := MessageRole.assistant, content := "d" },
          { role := MessageRole.user, content := "e" }]]
      = "\n\n" ++ DEFAULT_INTRO_HISTORY_MESSAGE ++ "\n"
          ++ (specSection 1
                [{ role := MessageRole.user, content := "a" },
                 { role := MessageRole.assistant, content := "b" }]
              ++ specSection 2
                [{ role := MessageRole.user, content := "c" },
                 { role := MessageRole.assistant, content := "d" },
                 { role := MessageRole.user, content := "e" }])
          ++ DEFAULT_OUTRO_HISTORY_MESSAGE :=
  format_sections_spec [[{ role := MessageRole.user, content := "q" }]]
    [{ role := MessageRole.user, content := "a" },
     { role := MessageRole.assistant, content := "b" }]
    [{ role := MessageRole.user, content := "c" },
     { role := MessageRole.assistant, content := "d" },
     { role := MessageRole.user, content := "e" }]
    (by decide) (by decide)

/-- C8: `reset` clears only the primary source's history and leaves every
secondary source's stored history (hence a subsequent `get_all` on it)
unchanged, while `reset_all` clears the primary and then every secondary
source in fixed order. -/
theorem reset_primary_only_reset_all_everything (p : BaseMemory) (secs : List BaseMemory) :
    (SimpleComposableMemory.reset
        { primary_memory := p, secondary_memory_sources := secs }).primary_memory.store = []
    ∧ (SimpleComposableMemory.reset
        { primary_memory := p, secondary_memory_sources := secs }).secondary_memory_sources
        = secs
    ∧ ((SimpleComposableMemory.reset
        { primary_memory := p, secondary_memory_sources := secs }).secondary_memory_sources.map
          BaseMemory.get_all)
        = secs.map BaseMemory.get_all
    ∧ SimpleComposableMemory.reset_all
        { primary_memory := p, secondary_memory_sources := secs }
        = { primary_memory := p.resetMem,
            secondary_memory_sources := secs.map BaseMemory.resetMem }
    ∧ ∀ mem ∈ (SimpleComposableMemory.reset_all
        { primary_memory := p, secondary_memory_sources := secs }).secondary_memory_sources,
        mem.store = [] := by
  refine ⟨rfl, rfl, rfl, rfl, ?_⟩
  intro mem hmem
  simp only [SimpleComposableMemory.reset_all, List.mem_map] at hmem
  obtain ⟨m0, _, rfl⟩ := hmem
  rfl

/-- C9: `get_all` returns exactly the result of the primary source's
`get_all`, unmodified, and is independent of the secondary sources'
contents — no injection block is added to the returned history. -/
theorem get_all_delegates_to_primary (p : BaseMemory) (secs secs' : List BaseMemory) :
    SimpleComposableMemory.get_all { primary_memory := p, secondary_memory_sources := secs }
      = p.get_all
    ∧ SimpleComposableMemory.get_all { primary_memory := p, secondary_memory_sources := secs }
      = SimpleComposableMemory.get_all
        { primary_memory := p, secondary_memory_sources := secs' } :=
  ⟨rfl, rfl⟩

/-- C10: `from_defaults` never raises for any (optional) list argument: the
empty list is falsy in Python and is replaced by a single freshly created
default in-memory buffer, so the empty-list `ConfigurationError` is
reachable only through the direct constructor. -/
theorem from_defaults_never_fails (osources : Option (List BaseMemory)) :
    (∃ scm, SimpleComposableMemory.from_defaults osources = .ok scm)
    ∧ SimpleComposableMemory.from_defaults (some [])
        = .ok { primary_memory := chatMemoryBufferDefault, secondary_memory_sources := [] }
    ∧ ∀ e, SimpleComposableMemory.from_defaults osources ≠ .error e := by
  refine ⟨?_, rfl, ?_⟩
  · match osources with
    | none => exact ⟨_, rfl⟩
    | some [] => exact ⟨_, rfl⟩
    | some (s :: rest) => exact ⟨_, rfl⟩
  · intro e hcontr
    match osources with
    | none => simp [SimpleComposableMemory.from_defaults, SimpleComposableMemory.init] at hcontr
    | some [] => simp [SimpleComposableMemory.from_defaults, SimpleComposableMemory.init] at hcontr
    | some (s :: rest) =>
      simp [SimpleComposableMemory.from_defaults, SimpleComposableMemory.init] at hcontr

/-- C2 as stated is false: `str.strip()` removes leading whitespace from the
system prefix as well, so for `X = " You are terse."` (leading space, no
trailing whitespace) the composed first message content is not
`X` (trailing-trimmed) followed by the block — the code produces
`"You are terse."` followed by the block. -/
theorem compose_system_trailing_only_counterexample :
    (composeMessageHistories [{ role := MessageRole.system, content := " You are terse." }]
        [[{ role := MessageRole.user, content := "hi" }]]).head?.map ChatMessage.content
      ≠ some (" You are terse."
          ++ formatSecondaryMessages
            ([[{ role := MessageRole.user, content := "hi" }]].filter
              fun h => !h.isEmpty)) := by
  decide

/-- C2 amended: for every primary history whose first message has role
SYSTEM with content `X` not containing the introductory marker sentence,
when at least one secondary source returns a non-empty history yielding
injection block `B`, the result's first message is SYSTEM with content equal
to `X` with leading and trailing whitespace trimmed followed by `B`, and
every other message of the primary history is unchanged and in its original
position and order. -/
theorem compose_system_head_amended (X : String) (rest : List ChatMessage)
    (sh : List (List ChatMessage))
    (hX : containsSub DEFAULT_INTRO_HISTORY_MESSAGE.data X.data = false)
    (hs : (sh.filter fun h => !h.isEmpty) ≠ []) :
    composeMessageHistories ({ role := MessageRole.system, content := X } :: rest) sh
      = { role := MessageRole.system,
          content := pyStrip X ++ formatSecondaryMessages (sh.filter fun h => !h.isEmpty) }
          :: rest := by
  rw [compose_system_cons X rest sh hs, splitHead_of_not_contains _ _ hX]

theorem compose_system_head_amended_witness :
    composeMessageHistories
        ({ role := MessageRole.system, content := " You are terse. " }
          :: [{ role := MessageRole.user, content := "q" }])
        [[{ role := MessageRole.user, content := "hi" }]]
      = { role := MessageRole.system,
          content := pyStrip " You are terse. "
            ++ formatSecondaryMessages
              ([[{ role := MessageRole.user, content := "hi" }]].filter
                fun h => !h.isEmpty) }
        :: [{ role := MessageRole.user, content := "q" }] :=
  compose_system_head_amended " You are terse. " [{ role := MessageRole.user, content := "q" }]
    [[{ role := MessageRole.user, content := "hi" }]] (by decide) (by decide)

/-! ## The `put` fan-out refinement (C7) -/

theorem putAll_none (message : ChatMessage) (secs : List BaseMemory)
    (h : firstFailIdx secs = none) (ix : Nat) :
    putAllSecondaries message ix secs = (secs.map (appendMsg message), none) := by
  induction secs generalizing ix with
  | nil => rfl
  | cons mem rest ih =>
    simp only [firstFailIdx] at h
    by_cases hf : mem.failsPut = true
    · rw [if_pos hf] at h
      exact Option.noConfusion h
    · rw [if_neg hf] at h
      have hrest : firstFailIdx rest = none := Option.map_eq_none'.mp h
      have hf' : mem.failsPut = false := by
        cases hb : mem.failsPut
        · rfl
        · exact absurd hb hf
      simp [putAllSecondaries, BaseMemory.putMsg, hf', ih hrest, appendMsg]

theorem putAll_some (message : ChatMessage) (secs : List BaseMemory) (k : Nat)
    (h : firstFailIdx secs = some k) (ix : Nat) :
    putAllSecondaries message ix secs
      = ((secs.take k).map (appendMsg message) ++ secs.drop k,
          some (.secondary (ix + k))) := by
  induction secs generalizing ix k with
  | nil => exact Option.noConfusion h
  | cons mem rest ih =>
    simp only [firstFailIdx] at h
    by_cases hf : mem.failsPut = true
    · rw [if_pos hf] at h
      have hk0 : k = 0 := (Option.some.inj h).symm
      subst hk0
      simp [putAllSecondaries, BaseMemory.putMsg, hf]
    · rw [if_neg hf] at h
      obtain ⟨k1, hk1, hkk⟩ := Option.map_eq_some'.mp h
      subst hkk
      have hf' : mem.failsPut = false := by
        cases hb : mem.failsPut
        · rfl
        · exact absurd hb hf
      rw [show putAllSecondaries message ix (mem :: rest)
          = (appendMsg message mem :: (putAllSecondaries message (ix + 1) rest).1,
             (putAllSecondaries message (ix + 1) rest).2) by
        simp [putAllSecondaries, BaseMemory.putMsg, hf', appendMsg]]
      rw [ih k1 hk1 (ix + 1)]
      simp only [List.take_succ_cons, List.map_cons, List.drop_succ_cons, List.cons_append,
        Prod.mk.injEq, SourceWriteError.secondary.injEq]
      refine ⟨trivial, ?_⟩
      rw [show ix + 1 + k1 = ix + (k1 + 1) by omega]

/-- C7: `put(m)` appends `m` to the primary source and then to every
secondary source in fixed order; when a source's write fails the operation
fails with a `SourceWriteError` identifying the failing source, the sources
written before the failure keep their appended message and no rollback
occurs — `put` refines the spec's closed-form outcome `putExpected`. -/
theorem put_fanout_refines (scm : SimpleComposableMemory) (message : ChatMessage) :
    scm.put message = putExpected scm message := by
  cases scm with
  | mk p secs =>
    by_cases hf : p.failsPut
    · simp [SimpleComposableMemory.put, BaseMemory.putMsg, hf, putExpected]
    · cases hk : firstFailIdx secs with
      | none =>
        simp [SimpleComposableMemory.put, BaseMemory.putMsg, hf, putExpected, hk,
          putAll_none message secs hk 0, appendMsg]
      | some k =>
        simp [SimpleComposableMemory.put, BaseMemory.putMsg, hf, putExpected, hk,
          putAll_some message secs k hk 0, appendMsg]

/-- C1: idempotent re-composition — if a first `get` injects block `B` into
the SYSTEM message with original prefix `X`, and that result is later
returned by the primary source as the new primary history, a second
composition yielding block `B'` produces a first message whose content is
`X ++ B'` and never `X ++ B ++ B'`: the previously injected block, starting
at the first occurrence of the introductory marker sentence, is stripped
before re-injecting. -/
theorem get_recompose_strips_previous_block (X : String) (rest : List ChatMessage)
    (sh sh' : List (List ChatMessage))
    (h1 : pyStrip X = X)
    (h2 : containsSub DEFAULT_INTRO_HISTORY_MESSAGE.data X.data = false)
    (h3 : (sh.filter fun h => !h.isEmpty) ≠ [])
    (h4 : (sh'.filter fun h => !h.isEmpty) ≠ []) :
    (composeMessageHistories
        (composeMessageHistories ({ role := MessageRole.system, content := X } :: rest) sh)
        sh').head?.map ChatMessage.content
      = some (X ++ formatSecondaryMessages (sh'.filter fun h => !h.isEmpty))
    ∧ X ++ formatSecondaryMessages (sh'.filter fun h => !h.isEmpty)
      ≠ X ++ formatSecondaryMessages (sh.filter fun h => !h.isEmpty)
        ++ formatSecondaryMessages (sh'.filter fun h => !h.isEmpty) := by
  have hstrip : stripL X.data = X.data := congrArg String.data h1
  have hm : DEFAULT_INTRO_HISTORY_MESSAGE.data ≠ [] := by decide
  have hnl : '\n' ∉ DEFAULT_INTRO_HISTORY_MESSAGE.data := by decide
  have hfirst : composeMessageHistories
      ({ role := MessageRole.system, content := X } :: rest) sh
      = { role := MessageRole.system,
          content := X ++ formatSecondaryMessages (sh.filter fun h => !h.isEmpty) }
          :: rest := by
    rw [compose_system_cons X rest sh h3, splitHead_of_not_contains _ _ h2, h1]
  have hsplit : splitHeadOnMarker DEFAULT_INTRO_HISTORY_MESSAGE
      (X ++ formatSecondaryMessages (sh.filter fun h => !h.isEmpty))
      = (⟨X.data ++ ['\n', '\n']⟩ : String) := by
    rw [splitHeadOnMarker]
    congr 1
    rw [string_data_append, format_data]
    exact takeUntil_append_marker _ X.data _ hm hnl h2
  have hstrip2 : pyStrip (⟨X.data ++ ['\n', '\n']⟩ : String) = X := by
    rw [pyStrip]
    rw [show (⟨X.data ++ ['\n', '\n']⟩ : String).data = X.data ++ ['\n', '\n'] from rfl]
    rw [stripL_append_nn X.data hstrip, string_mk_data]
  constructor
  · rw [hfirst,
      compose_system_cons (X ++ formatSecondaryMessages (sh.filter fun h => !h.isEmpty))
        rest sh' h4,
      hsplit, hstrip2]
    rfl
  · intro heq
    have hdata := congrArg String.data heq
    simp only [string_data_append] at hdata
    have hlen := congrArg List.length hdata
    simp only [List.length_append] at hlen
    have hpos : 0 < (formatSecondaryMessages (sh.filter fun h => !h.isEmpty)).data.length := by
      rw [format_data]
      simp
    omega

theorem get_recompose_strips_previous_block_witness :
    (composeMessageHistories
        (composeMessageHistories
          ({ role := MessageRole.system, content := "You are an agent." } :: [])
          [[{ role := MessageRole.user, content := "a" }]])
        [[{ role := MessageRole.user, content := "b" }]]).head?.map ChatMessage.content
      = some ("You are an agent."
          ++ formatSecondaryMessages
            ([[{ role := MessageRole.user, content := "b" }]].filter fun h => !h.isEmpty))
    ∧ "You are an agent."
        ++ formatSecondaryMessages
          ([[{ role := MessageRole.user, content := "b" }]].filter fun h => !h.isEmpty)
      ≠ "You are an agent."
        ++ formatSecondaryMessages
          ([[{ role := MessageRole.user, content := "a" }]].filter fun h => !h.isEmpty)
        ++ formatSecondaryMessages
          ([[{ role := MessageRole.user, content := "b" }]].filter fun h => !h.isEmpty) :=
  get_recompose_strips_previous_block "You are an agent." []
    [[{ role := MessageRole.user, content := "a" }]]
    [[{ role := MessageRole.user, content := "b" }]]
    (by decide) (by decide) (by decide) (by decide)
